import Mathlib

/-!
Verification of the vocal-cancellation core of `src/karaoke_live/app2.py`
(`butter_lowpass_sos`, lines 46-48, and `vocal_cancel_mid_side`, lines 50-62).

Floating-point samples and filter coefficients are idealized as real numbers.
An `AudioBuffer` models the `(data, sr)` pair produced by
`soundfile.read(..., always_2d=True)`: a list of frames, each a list holding
one sample per channel, together with the declared channel count and sample
rate.  Writing the output file is modeled as returning the output buffer;
a raised Python exception is modeled as an `Except.error`.

The scipy collaborators are embedded by their documented algorithms:
`butter(4, Wn, btype="low", output="sos")` validates `0 < Wn < 1` and
yields two second-order sections via the bilinear transform of the
order-4 Butterworth prototype; `sosfiltfilt` odd-extends the input by
`padlen` samples on both sides (rejecting inputs of length at most
`padlen`), runs the cascade forward with initial conditions
`sosfilt_zi(sos)` scaled by the first extended sample, runs it backward
the same way, and trims the extensions.
-/

namespace KaraokeApp2

/-- Second-order digital filter section: numerator coefficients
`(b0, b1, b2)` and denominator `(1, a1, a2)` (scipy rows have `a0 = 1`
for `butter` output). -/
structure SosSection where
  b0 : ℝ
  b1 : ℝ
  b2 : ℝ
  a1 : ℝ
  a2 : ℝ

/-- Decoded audio as returned by `sf.read(path, always_2d=True)`: `data`
is the frame list (each frame one sample per channel), `channels` the
second dimension of its shape, `sr` the sample rate. -/
structure AudioBuffer where
  channels : ℕ
  data : List (List ℝ)
  sr : ℕ

/-- Errors the modeled pipeline can signal: `configError` is the
`ValueError` scipy `butter` raises for a critical frequency outside
`(0, 1)`; `shortInput` is the `ValueError` `sosfiltfilt` raises when the
input is not longer than its padding length. -/
inductive PipelineError where
  | configError
  | shortInput
deriving DecidableEq

/-- Normalized critical frequency `cutoff_hz / (sr / 2)` from
`butter_lowpass_sos` (app2.py line 48). -/
noncomputable def butterWn (sr cutoff_hz : ℕ) : ℝ :=
  (cutoff_hz : ℝ) / ((sr : ℝ) / 2)

/-- One digital second-order section of the order-4 Butterworth design:
the analog pair `s ^ 2 + 2 * zeta * s + 1` under the prewarped bilinear
transform with `t = tan (pi * Wn / 2)` has denominator
`(1, 2 * (t ^ 2 - 1) / d, (1 - 2 * zeta * t + t ^ 2) / d)` with
`d = 1 + 2 * zeta * t + t ^ 2`; the numerator is the monic `(1, 2, 1)`
from the doubled zero at `z = -1`, scaled by the gain `g` this section
carries. -/
noncomputable def butterSection (t zeta g : ℝ) : SosSection :=
  { b0 := g, b1 := 2 * g, b2 := g
    a1 := 2 * (t ^ 2 - 1) / (1 + 2 * zeta * t + t ^ 2)
    a2 := (1 - 2 * zeta * t + t ^ 2) / (1 + 2 * zeta * t + t ^ 2) }

/-- The section list of `butter(4, Wn, btype="low", output="sos")`: pole
pairs with damping `cos (pi / 8)` and `cos (3 * pi / 8)`, the overall
gain `t ^ 4 / (d1 * d2)` placed on the first section (scipy `zpk2sos`
orders the section with poles closest to the unit circle last). -/
noncomputable def butterLowpassSections (Wn : ℝ) : List SosSection :=
  let t := Real.tan (Real.pi * Wn / 2)
  let z1 := Real.cos (Real.pi / 8)
  let z2 := Real.cos (3 * Real.pi / 8)
  let g := t ^ 4 / ((1 + 2 * z1 * t + t ^ 2) * (1 + 2 * z2 * t + t ^ 2))
  [butterSection t z1 g, butterSection t z2 1]

/-- Embedding of `butter_lowpass_sos` (app2.py lines 46-48):
`butter(4, cutoff_hz / (sr / 2), btype="low", output="sos")`.  scipy
raises `ValueError` unless the normalized frequency lies strictly
between 0 and 1; over the integers `sr` and `cutoff_hz` that condition
is `0 < cutoff_hz ∧ 2 * cutoff_hz < sr`. -/
noncomputable def butter_lowpass_sos (sr cutoff_hz : ℕ) :
    Except PipelineError (List SosSection) :=
  if 0 < cutoff_hz ∧ 2 * cutoff_hz < sr then
    .ok (butterLowpassSections (butterWn sr cutoff_hz))
  else
    .error .configError

/-- One step of a second-order section in direct form II transposed, as
scipy `sosfilt` runs it: from state `(z0, z1)` and input `x`, output
`y = b0 * x + z0` and the next state. -/
noncomputable def sectionStep (s : SosSection) (st : ℝ × ℝ) (x : ℝ) :
    ℝ × (ℝ × ℝ) :=
  let y := s.b0 * x + st.1
  (y, (s.b1 * x - s.a1 * y + st.2, s.b2 * x - s.a2 * y))

/-- Run one second-order section over a signal from initial state `st`,
returning the output signal and the final state. -/
noncomputable def sectionFilter (s : SosSection) (st : ℝ × ℝ) :
    List ℝ → List ℝ × (ℝ × ℝ)
  | [] => ([], st)
  | x :: xs =>
    let p := sectionStep s st x
    let q := sectionFilter s p.2 xs
    (p.1 :: q.1, q.2)

/-- scipy `sosfilt`: apply the cascade of sections in order, each with
its own initial state (the `zi` rows, one per section). -/
noncomputable def sosfiltRun : List SosSection → List (ℝ × ℝ) → List ℝ → List ℝ
  | [], _, x => x
  | s :: rest, zi, x =>
    sosfiltRun rest zi.tail (sectionFilter s (zi.headD (0, 0)) x).1

/-- DC gain `(b0 + b1 + b2) / (1 + a1 + a2)` of one section, the
`scale` update in scipy `sosfilt_zi`. -/
noncomputable def sectionDC (s : SosSection) : ℝ :=
  (s.b0 + s.b1 + s.b2) / (1 + s.a1 + s.a2)

/-- Steady-state initial conditions `lfilter_zi (b, a)` of one
second-order section in direct form II transposed: the state reached on
a constant unit input, in closed form. -/
noncomputable def sectionZi (s : SosSection) : ℝ × ℝ :=
  (s.b1 + s.b2 - (s.a1 + s.a2) * sectionDC s, s.b2 - s.a2 * sectionDC s)

/-- scipy `sosfilt_zi`: per-section steady states, each scaled by the
cumulative DC gain of the preceding sections (the accumulator starts
at 1). -/
noncomputable def sosfiltZi : List SosSection → ℝ → List (ℝ × ℝ)
  | [], _ => []
  | s :: rest, scale =>
    (scale * (sectionZi s).1, scale * (sectionZi s).2) ::
      sosfiltZi rest (scale * sectionDC s)

open Classical in
/-- Default padding length of scipy `sosfiltfilt`:
`3 * (2 * n_sections + 1 - min #(b2 = 0) #(a2 = 0))`. -/
noncomputable def padlenOf (sos : List SosSection) : ℕ :=
  3 * (2 * sos.length + 1 -
    min (sos.countP (fun s => decide (s.b2 = 0)))
        (sos.countP (fun s => decide (s.a2 = 0))))

/-- scipy `odd_ext`: extend a signal by `n` samples on both ends by odd
reflection about the endpoint values. -/
noncomputable def odd_ext (n : ℕ) (x : List ℝ) : List ℝ :=
  let x0 := x.getD 0 0
  let xl := x.getD (x.length - 1) 0
  ((List.range n).map (fun i => 2 * x0 - x.getD (n - i) 0)) ++ x ++
    ((List.range n).map (fun i => 2 * xl - x.getD (x.length - 2 - i) 0))

/-- Successful branch of scipy `sosfiltfilt`: odd-extend the signal by
the padding length, filter forward with `sosfilt_zi` scaled by the first
extended sample, filter the reversal with `sosfilt_zi` scaled by the
last forward output, reverse back and trim the extensions. -/
noncomputable def filtfiltCore (sos : List SosSection) (x : List ℝ) : List ℝ :=
  let edge := padlenOf sos
  let ext := odd_ext edge x
  let zi := sosfiltZi sos 1
  let x0 := ext.getD 0 0
  let y1 := sosfiltRun sos (zi.map (fun p => (x0 * p.1, x0 * p.2))) ext
  let y0 := y1.getD (y1.length - 1) 0
  let y2 := sosfiltRun sos (zi.map (fun p => (y0 * p.1, y0 * p.2))) y1.reverse
  let y := y2.reverse
  (y.drop edge).take (y.length - 2 * edge)

/-- scipy `sosfiltfilt` with default arguments, as called on the mid
channel (app2.py line 57): inputs not longer than the padding length are
rejected with a `ValueError`, all others are zero-phase filtered by
`filtfiltCore`. -/
noncomputable def sosfiltfilt (sos : List SosSection) (x : List ℝ) :
    Except PipelineError (List ℝ) :=
  if x.length ≤ padlenOf sos then .error .shortInput
  else .ok (filtfiltCore sos x)

/-- Column 0 of the frame array, `data[:, 0]`. -/
noncomputable def colL (data : List (List ℝ)) : List ℝ :=
  data.map (fun fr => fr.getD 0 0)

/-- Column 1 of the frame array, `data[:, 1]`. -/
noncomputable def colR (data : List (List ℝ)) : List ℝ :=
  data.map (fun fr => fr.getD 1 0)

/-- Mid channel `M = 0.5 * (L + R)` (app2.py line 55). -/
noncomputable def midOf (L R : List ℝ) : List ℝ :=
  List.zipWith (fun l r => 0.5 * (l + r)) L R

/-- Side channel `S = 0.5 * (L - R)` (app2.py line 55). -/
noncomputable def sideOf (L R : List ℝ) : List ℝ :=
  List.zipWith (fun l r => 0.5 * (l - r)) L R

/-- Row stacking `np.stack([outL, outR], axis=1)` (app2.py line 59). -/
noncomputable def stackLR (outL outR : List ℝ) : List (List ℝ) :=
  List.zipWith (fun l r => [l, r]) outL outR

/-- Peak `np.max(np.abs(out))` of the stacked output; at the call site
`outL` and `outR` have equal length, so the entries of the stacked array
are exactly those of `outL ++ outR`. -/
noncomputable def rawPeakOf (outL outR : List ℝ) : ℝ :=
  ((outL ++ outR).map (fun v => |v|)).foldr max 0

open Classical in
/-- Normalization step (app2.py lines 59-61): stack the two channels,
take `peak = float(np.max(np.abs(out)) or 1.0)` (Python `or` replaces a
zero peak by 1.0), and divide every sample by `peak` when `peak > 1.0`. -/
noncomputable def normalize_stack (outL outR : List ℝ) : List (List ℝ) :=
  let out := stackLR outL outR
  let peak := if rawPeakOf outL outR = 0 then 1 else rawPeakOf outL outR
  if 1 < peak then out.map (fun row => row.map (fun v => v / peak)) else out

/-- Embedding of `vocal_cancel_mid_side` (app2.py lines 50-62), reading
the source file modeled as the input buffer and writing the output file
modeled as the returned buffer.  A buffer whose shape has exactly one
channel is written back unchanged; otherwise columns 0 and 1 are
decomposed into mid and side, the mid is low-pass filtered by
`sosfiltfilt` with the `butter_lowpass_sos` sections, the channels are
recombined as `S + M_low` and `-S + M_low`, stacked and normalized. -/
noncomputable def vocal_cancel_mid_side (buf : AudioBuffer)
    (keep_bass_hz : ℕ) : Except PipelineError AudioBuffer :=
  if buf.channels = 1 then .ok buf
  else
    let L := colL buf.data
    let R := colR buf.data
    let M := midOf L R
    let S := sideOf L R
    match butter_lowpass_sos buf.sr keep_bass_hz with
    | .error e => .error e
    | .ok sos =>
      match sosfiltfilt sos M with
      | .error e => .error e
      | .ok M_low =>
        let outL := List.zipWith (fun s m => s + m) S M_low
        let outR := List.zipWith (fun s m => -s + m) S M_low
        .ok { channels := 2, data := normalize_stack outL outR, sr := buf.sr }

/-- All-zero stereo buffer with `n` frames, used for the silence
claims. -/
def zeroStereo (n sr : ℕ) : AudioBuffer :=
  { channels := 2, data := List.replicate n [0, 0], sr := sr }

/-! ## Helper lemmas about the filter machinery -/

theorem padlen_ge_nine (sos : List SosSection) (h2 : sos.length = 2) :
    9 ≤ padlenOf sos := by
  have hb := List.countP_le_length (l := sos)
    (p := fun s => decide (s.b2 = 0))
  have ha := List.countP_le_length (l := sos)
    (p := fun s => decide (s.a2 = 0))
  rw [h2] at hb ha
  unfold padlenOf
  rw [h2]
  omega

theorem padlen_le_fifteen (sos : List SosSection) (h2 : sos.length = 2) :
    padlenOf sos ≤ 15 := by
  unfold padlenOf
  rw [h2]
  omega

theorem butterLowpassSections_length (Wn : ℝ) :
    (butterLowpassSections Wn).length = 2 := rfl

theorem sosfiltfilt_short (sos : List SosSection) (x : List ℝ)
    (h : x.length ≤ padlenOf sos) :
    sosfiltfilt sos x = .error .shortInput := by
  unfold sosfiltfilt
  rw [if_pos h]

theorem butter_lowpass_sos_ok (sr c : ℕ) (hc0 : 0 < c) (hc1 : 2 * c < sr) :
    butter_lowpass_sos sr c = .ok (butterLowpassSections (butterWn sr c)) := by
  unfold butter_lowpass_sos
  rw [if_pos ⟨hc0, hc1⟩]

/-! ## Mono pass-through and determinism -/

/-- C4: a buffer whose shape has exactly one channel is written back
unmodified — the same samples, frame count, channel count and sample
rate — for every cutoff value (app2.py lines 52-53). -/
theorem mono_passthrough (b : AudioBuffer) (c : ℕ) (h : b.channels = 1) :
    vocal_cancel_mid_side b c = .ok b := by
  unfold vocal_cancel_mid_side
  rw [if_pos h]

/-- Witness for `mono_passthrough` at a concrete one-channel buffer and
a (deliberately out-of-range) cutoff. -/
theorem mono_passthrough_witness :
    ({ channels := 1, data := [[0.25]], sr := 44100 } : AudioBuffer).channels = 1 ∧
    vocal_cancel_mid_side { channels := 1, data := [[0.25]], sr := 44100 } 44100 =
      .ok { channels := 1, data := [[0.25]], sr := 44100 } :=
  ⟨rfl, mono_passthrough _ 44100 rfl⟩

/-- C9: the transform is deterministic and depends only on the sample
data, the channel count, the sample rate and the cutoff: two calls on
buffers that agree in those fields return equal results. -/
theorem extract_deterministic (b1 b2 : AudioBuffer) (c1 c2 : ℕ)
    (hch : b1.channels = b2.channels) (hdata : b1.data = b2.data)
    (hsr : b1.sr = b2.sr) (hc : c1 = c2) :
    vocal_cancel_mid_side b1 c1 = vocal_cancel_mid_side b2 c2 := by
  cases b1
  cases b2
  cases hch
  cases hdata
  cases hsr
  cases hc
  rfl

/-- Witness for `extract_deterministic` at a concrete stereo buffer and
cutoff. -/
theorem extract_deterministic_witness :
    vocal_cancel_mid_side { channels := 2, data := [[1, 2]], sr := 44100 } 120 =
      vocal_cancel_mid_side { channels := 2, data := [[1, 2]], sr := 44100 } 120 :=
  extract_deterministic _ _ _ _ rfl rfl rfl rfl

/-! ## Cutoff validation -/

/-- C2 counterexample: a one-channel buffer with `cutoff_hz` far above
Nyquist (`30000 >= 44100 / 2`) is passed through successfully — the mono
early return on line 52 precedes any cutoff validation, so the claimed
`ConfigurationError` is not raised. -/
theorem config_error_mono_counterexample :
    44100 ≤ 2 * 30000 ∧
    vocal_cancel_mid_side { channels := 1, data := [[0]], sr := 44100 } 30000 =
      .ok { channels := 1, data := [[0]], sr := 44100 } :=
  ⟨by norm_num, rfl⟩

/-- C2 amended: for buffers that do not take the mono early return
(channel count different from 1), a cutoff at or above Nyquist makes the
call fail with the configuration error and return no output buffer. -/
theorem config_error_no_output (b : AudioBuffer) (c : ℕ)
    (hch : b.channels ≠ 1) (hc : b.sr ≤ 2 * c) :
    vocal_cancel_mid_side b c = .error .configError := by
  unfold vocal_cancel_mid_side
  rw [if_neg hch]
  have hbad : ¬ (0 < c ∧ 2 * c < b.sr) := by omega
  unfold butter_lowpass_sos
  rw [if_neg hbad]

/-- Witness for `config_error_no_output` at a concrete stereo buffer
with `cutoff_hz = sample_rate / 2`. -/
theorem config_error_no_output_witness :
    ({ channels := 2, data := [[0, 0]], sr := 44100 } : AudioBuffer).channels ≠ 1 ∧
    44100 ≤ 2 * 22050 ∧
    vocal_cancel_mid_side { channels := 2, data := [[0, 0]], sr := 44100 } 22050 =
      .error .configError :=
  ⟨by decide, by norm_num,
    config_error_no_output _ 22050 (by decide) (by norm_num)⟩

/-! ## Empty input -/

/-- C3 counterexample: a zero-frame one-channel buffer with a valid
cutoff is written back successfully — the mono early return on line 52
precedes any emptiness check, so no error of any kind is raised. -/
theorem empty_input_mono_counterexample :
    0 < 120 ∧ 2 * 120 < 44100 ∧
    vocal_cancel_mid_side { channels := 1, data := [], sr := 44100 } 120 =
      .ok { channels := 1, data := [], sr := 44100 } :=
  ⟨by norm_num, by norm_num, rfl⟩

/-- C3 amended: a zero-frame buffer that does not take the mono early
return fails with the error `sosfiltfilt` raises when it is attempted on
a sequence not longer than its padding length (there is no dedicated
empty-input error; the filtering step itself rejects the empty mid
channel). -/
theorem empty_stereo_short_input (b : AudioBuffer) (c : ℕ)
    (hch : b.channels ≠ 1) (hdata : b.data = [])
    (hc0 : 0 < c) (hc1 : 2 * c < b.sr) :
    vocal_cancel_mid_side b c = .error .shortInput := by
  unfold vocal_cancel_mid_side
  rw [if_neg hch, butter_lowpass_sos_ok b.sr c hc0 hc1, hdata]
  have hshort : (midOf (colL []) (colR [])).length ≤
      padlenOf (butterLowpassSections (butterWn b.sr c)) := by
    simp [midOf, colL, colR]
  simp only [sosfiltfilt_short _ _ hshort]

/-- Witness for `empty_stereo_short_input` at a concrete zero-frame
stereo buffer and valid cutoff. -/
theorem empty_stereo_short_input_witness :
    ({ channels := 2, data := [], sr := 44100 } : AudioBuffer).channels ≠ 1 ∧
    0 < 120 ∧ 2 * 120 < 44100 ∧
    vocal_cancel_mid_side { channels := 2, data := [], sr := 44100 } 120 =
      .error .shortInput :=
  ⟨by decide, by norm_num, by norm_num,
    empty_stereo_short_input _ 120 (by decide) rfl (by norm_num) (by norm_num)⟩

/-! ## Normalization -/

theorem sosfiltfilt_ok (sos : List SosSection) (x : List ℝ)
    (h : padlenOf sos < x.length) :
    sosfiltfilt sos x = .ok (filtfiltCore sos x) := by
  unfold sosfiltfilt
  rw [if_neg (not_le.mpr h)]

theorem le_foldr_max (x b : ℝ) (l : List ℝ) (hx : x ∈ l) :
    x ≤ l.foldr max b := by
  induction l with
  | nil => simp at hx
  | cons a as ih =>
    rw [List.foldr_cons]
    rcases List.mem_cons.mp hx with rfl | h
    · exact le_max_left _ _
    · exact le_trans (ih h) (le_max_right _ _)

theorem abs_le_rawPeak (outL outR : List ℝ) (v : ℝ)
    (h : v ∈ outL ∨ v ∈ outR) : |v| ≤ rawPeakOf outL outR := by
  apply le_foldr_max
  exact List.mem_map_of_mem _ (List.mem_append.mpr h)

theorem mem_stackLR (outL outR : List ℝ) (row : List ℝ)
    (h : row ∈ stackLR outL outR) :
    ∃ l r, l ∈ outL ∧ r ∈ outR ∧ row = [l, r] := by
  unfold stackLR at h
  induction outL generalizing outR with
  | nil => simp at h
  | cons a as ih =>
    cases outR with
    | nil => simp at h
    | cons b bs =>
      rw [List.zipWith_cons_cons] at h
      rcases List.mem_cons.mp h with h1 | h2
      · exact ⟨a, b, List.mem_cons_self _ _, List.mem_cons_self _ _, h1⟩
      · obtain ⟨l, r, hl, hr, hrow⟩ := ih bs h2
        exact ⟨l, r, List.mem_cons_of_mem _ hl, List.mem_cons_of_mem _ hr, hrow⟩

/-- C8: the normalization step (app2.py lines 60-61) rescales exactly
when the raw peak exceeds 1: a peak at most 1 (including the `or 1.0`
silence path) leaves the stacked samples unscaled, so quiet output is
never amplified, and a peak above 1 divides every sample by the peak. -/
theorem normalize_scales_iff (outL outR : List ℝ) :
    (rawPeakOf outL outR ≤ 1 →
      normalize_stack outL outR = stackLR outL outR) ∧
    (1 < rawPeakOf outL outR →
      normalize_stack outL outR =
        (stackLR outL outR).map
          (fun row => row.map (fun v => v / rawPeakOf outL outR))) := by
  constructor
  · intro h
    unfold normalize_stack
    by_cases hz : rawPeakOf outL outR = 0
    · rw [if_pos hz, if_neg (lt_irrefl 1)]
    · rw [if_neg hz, if_neg (not_lt.mpr h)]
  · intro h
    have hz : rawPeakOf outL outR ≠ 0 := by
      intro h0
      rw [h0] at h
      exact absurd h (by norm_num)
    unfold normalize_stack
    rw [if_neg hz, if_pos h]

/-- Witness for `normalize_scales_iff` at concrete channels with raw
peak 2: the samples are divided by the peak. -/
theorem normalize_scales_iff_witness :
    1 < rawPeakOf [2] [0] ∧
    normalize_stack [2] [0] =
      (stackLR [2] [0]).map
        (fun row => row.map (fun v => v / rawPeakOf [2] [0])) := by
  have h2 : rawPeakOf [2] [0] = 2 := by
    simp [rawPeakOf]
  refine ⟨by rw [h2]; norm_num, (normalize_scales_iff [2] [0]).2 ?_⟩
  rw [h2]
  norm_num

theorem normalize_stack_bounded (outL outR : List ℝ) :
    ∀ row ∈ normalize_stack outL outR, ∀ v ∈ row, |v| ≤ 1 := by
  intro row hrow v hv
  unfold normalize_stack at hrow
  by_cases hz : rawPeakOf outL outR = 0
  · rw [if_pos hz, if_neg (lt_irrefl 1)] at hrow
    obtain ⟨l, r, hl, hr, rfl⟩ := mem_stackLR _ _ _ hrow
    have hb : |v| ≤ rawPeakOf outL outR := by
      apply abs_le_rawPeak
      rcases List.mem_cons.mp hv with rfl | hv'
      · exact Or.inl hl
      · rcases List.mem_cons.mp hv' with rfl | hv''
        · exact Or.inr hr
        · simp at hv''
    rw [hz] at hb
    linarith
  · rw [if_neg hz] at hrow
    by_cases h1 : 1 < rawPeakOf outL outR
    · rw [if_pos h1] at hrow
      obtain ⟨row0, hrow0, rfl⟩ := List.mem_map.mp hrow
      obtain ⟨l, r, hl, hr, rfl⟩ := mem_stackLR _ _ _ hrow0
      have hpos : 0 < rawPeakOf outL outR := by linarith
      obtain ⟨w, hw, rfl⟩ := List.mem_map.mp hv
      have hb : |w| ≤ rawPeakOf outL outR := by
        apply abs_le_rawPeak
        rcases List.mem_cons.mp hw with rfl | hw'
        · exact Or.inl hl
        · rcases List.mem_cons.mp hw' with rfl | hw''
          · exact Or.inr hr
          · simp at hw''
      rw [abs_div, abs_of_pos hpos, div_le_one hpos]
      exact hb
    · rw [if_neg h1] at hrow
      obtain ⟨l, r, hl, hr, rfl⟩ := mem_stackLR _ _ _ hrow
      have hb : |v| ≤ rawPeakOf outL outR := by
        apply abs_le_rawPeak
        rcases List.mem_cons.mp hv with rfl | hv'
        · exact Or.inl hl
        · rcases List.mem_cons.mp hv' with rfl | hv''
          · exact Or.inr hr
          · simp at hv''
      linarith [not_lt.mp h1]

/-- C5: whenever the transform returns an output buffer for a stereo
input with a valid cutoff, every output sample lies in `[-1, 1]` — the
normalization step caps the peak magnitude at 1. -/
theorem output_samples_bounded (b : AudioBuffer) (c : ℕ) (out : AudioBuffer)
    (hch : b.channels = 2) (hn : 1 ≤ b.data.length)
    (hc0 : 0 < c) (hc1 : 2 * c < b.sr)
    (h : vocal_cancel_mid_side b c = .ok out) :
    ∀ row ∈ out.data, ∀ v ∈ row, |v| ≤ 1 := by
  have hch1 : b.channels ≠ 1 := by rw [hch]; norm_num
  unfold vocal_cancel_mid_side at h
  rw [if_neg hch1] at h
  cases hbs : butter_lowpass_sos b.sr c with
  | error e =>
    simp only [hbs] at h
    exact Except.noConfusion h
  | ok sos =>
    simp only [hbs] at h
    cases hff : sosfiltfilt sos (midOf (colL b.data) (colR b.data)) with
    | error e =>
      simp only [hff] at h
      exact Except.noConfusion h
    | ok Mlow =>
      simp only [hff, Except.ok.injEq] at h
      rw [← h]
      exact normalize_stack_bounded _ _

/-! ## Silence preservation -/

theorem getD_replicate_zero (m i : ℕ) :
    (List.replicate m (0:ℝ)).getD i 0 = 0 := by
  induction m generalizing i with
  | zero => simp
  | succ n ih =>
    rw [List.replicate_succ]
    cases i with
    | zero => rw [List.getD_cons_zero]
    | succ j =>
      rw [List.getD_cons_succ]
      exact ih j

theorem odd_ext_zero (e n : ℕ) :
    odd_ext e (List.replicate n (0:ℝ)) =
      List.replicate (e + n + e) 0 := by
  unfold odd_ext
  simp only [getD_replicate_zero, mul_zero, sub_zero, List.map_const',
    List.length_range]
  rw [List.replicate_add, List.replicate_add]

theorem sectionFilter_zero (s : SosSection) (k : ℕ) :
    sectionFilter s (0, 0) (List.replicate k (0:ℝ)) =
      (List.replicate k 0, (0, 0)) := by
  induction k with
  | zero => rfl
  | succ m ih =>
    rw [List.replicate_succ]
    have hstep : sectionStep s (0, 0) (0:ℝ) = (0, (0, 0)) := by
      simp [sectionStep]
    simp only [sectionFilter, hstep, ih]

theorem sosfiltRun_zero (sos : List SosSection) (zi : List (ℝ × ℝ)) (k : ℕ)
    (hz : ∀ p ∈ zi, p = ((0:ℝ), (0:ℝ))) :
    sosfiltRun sos zi (List.replicate k (0:ℝ)) = List.replicate k 0 := by
  induction sos generalizing zi with
  | nil => rfl
  | cons s rest ih =>
    have hhead : zi.headD (0, 0) = (0, 0) := by
      cases zi with
      | nil => rfl
      | cons p ps => exact hz p (List.mem_cons_self _ _)
    rw [sosfiltRun, hhead, sectionFilter_zero]
    exact ih zi.tail (fun p hp => hz p (List.mem_of_mem_tail hp))

theorem sosfiltRun_scaled_zero (sos : List SosSection) (zi : List (ℝ × ℝ))
    (a : ℝ) (ha : a = 0) (k : ℕ) :
    sosfiltRun sos (zi.map (fun p => (a * p.1, a * p.2)))
      (List.replicate k (0:ℝ)) = List.replicate k 0 := by
  apply sosfiltRun_zero
  intro p hp
  obtain ⟨q, hq, rfl⟩ := List.mem_map.mp hp
  rw [ha]
  simp

theorem filtfiltCore_zero (sos : List SosSection) (n : ℕ) :
    filtfiltCore sos (List.replicate n (0:ℝ)) = List.replicate n 0 := by
  unfold filtfiltCore
  simp only [odd_ext_zero]
  rw [sosfiltRun_scaled_zero _ _ _ (getD_replicate_zero _ _)]
  rw [List.reverse_replicate,
    sosfiltRun_scaled_zero _ _ _ (getD_replicate_zero _ _),
    List.reverse_replicate, List.drop_replicate, List.take_replicate,
    List.length_replicate]
  congr 1
  omega

theorem zipWith_replicate_eq {β : Type} (f : ℝ → ℝ → β) (b : β)
    (hf : f 0 0 = b) (n : ℕ) :
    List.zipWith f (List.replicate n (0:ℝ)) (List.replicate n (0:ℝ)) =
      List.replicate n b := by
  induction n with
  | zero => rfl
  | succ m ih =>
    rw [List.replicate_succ, List.replicate_succ (n := m) (a := b),
      List.zipWith_cons_cons, hf, ih]

theorem rawPeakOf_zero (n m : ℕ) :
    rawPeakOf (List.replicate n (0:ℝ)) (List.replicate m (0:ℝ)) = 0 := by
  unfold rawPeakOf
  rw [← List.replicate_add, List.map_replicate, abs_zero]
  induction n + m with
  | zero => rfl
  | succ k ih =>
    rw [List.replicate_succ, List.foldr_cons, ih, max_self]

theorem normalize_stack_zero (n : ℕ) :
    normalize_stack (List.replicate n (0:ℝ)) (List.replicate n (0:ℝ)) =
      List.replicate n [0, 0] := by
  unfold normalize_stack
  rw [rawPeakOf_zero, if_pos rfl, if_neg (lt_irrefl 1)]
  unfold stackLR
  exact zipWith_replicate_eq (fun l r => [l, r]) [0, 0] rfl n

/-- Core of the silence claims: on an all-zero stereo buffer with at
least 16 frames and a valid cutoff, the whole pipeline returns the
all-zero buffer unchanged (the zero peak takes the `or 1.0` path, so no
division happens). -/
theorem vocal_cancel_zero_input (n sr c : ℕ) (hn : 16 ≤ n)
    (hc0 : 0 < c) (hc1 : 2 * c < sr) :
    vocal_cancel_mid_side (zeroStereo n sr) c = .ok (zeroStereo n sr) := by
  unfold vocal_cancel_mid_side zeroStereo
  rw [if_neg (by norm_num)]
  simp only
  rw [butter_lowpass_sos_ok sr c hc0 hc1]
  have hL : colL (List.replicate n [(0:ℝ), 0]) = List.replicate n 0 := by
    unfold colL
    rw [List.map_replicate]
    rfl
  have hR : colR (List.replicate n [(0:ℝ), 0]) = List.replicate n 0 := by
    unfold colR
    rw [List.map_replicate]
    rfl
  have hM : midOf (List.replicate n (0:ℝ)) (List.replicate n 0) =
      List.replicate n 0 :=
    zipWith_replicate_eq _ 0 (by norm_num) n
  have hS : sideOf (List.replicate n (0:ℝ)) (List.replicate n 0) =
      List.replicate n 0 :=
    zipWith_replicate_eq _ 0 (by norm_num) n
  have hff : sosfiltfilt (butterLowpassSections (butterWn sr c))
      (List.replicate n (0:ℝ)) = .ok (List.replicate n 0) := by
    rw [sosfiltfilt_ok, filtfiltCore_zero]
    rw [List.length_replicate]
    have := padlen_le_fifteen (butterLowpassSections (butterWn sr c))
      (butterLowpassSections_length _)
    omega
  simp only [hL, hR, hM, hS, hff]
  rw [zipWith_replicate_eq _ 0 (by norm_num) n,
    zipWith_replicate_eq _ 0 (by norm_num) n, normalize_stack_zero]

/-- C6: for every frame count `n` greater than the filter padding length
15 and every valid cutoff, the all-zero stereo input of length `n`
produces the all-zero output of length `n`; the zero peak is replaced by
1.0, so no division (and no NaN) occurs. -/
theorem silence_preserved (n sr c : ℕ) (hn : 16 ≤ n)
    (hc0 : 0 < c) (hc1 : 2 * c < sr) :
    vocal_cancel_mid_side
        { channels := 2, data := List.replicate n [0, 0], sr := sr } c =
      .ok { channels := 2, data := List.replicate n [0, 0], sr := sr } :=
  vocal_cancel_zero_input n sr c hn hc0 hc1

/-- Witness for `silence_preserved` at 16 frames, 44100 Hz, cutoff
120 Hz. -/
theorem silence_preserved_witness :
    16 ≤ 16 ∧ 0 < 120 ∧ 2 * 120 < 44100 ∧
    vocal_cancel_mid_side
        { channels := 2, data := List.replicate 16 [0, 0], sr := 44100 } 120 =
      .ok { channels := 2, data := List.replicate 16 [0, 0], sr := 44100 } :=
  ⟨le_refl 16, by norm_num, by norm_num,
    silence_preserved 16 44100 120 (le_refl 16) (by norm_num) (by norm_num)⟩

/-- C6 counterexample: at length `N = 1` (claimed to be allowed by
"every N >= 1") the all-zero stereo input does not produce an all-zero
output of length 1 — `sosfiltfilt` rejects any input shorter than its
padding length, so the call fails and produces nothing. -/
theorem silence_length_one_counterexample :
    0 < 120 ∧ 2 * 120 < 44100 ∧
    vocal_cancel_mid_side
        { channels := 2, data := [[0, 0]], sr := 44100 } 120 =
      .error .shortInput := by
  refine ⟨by norm_num, by norm_num, ?_⟩
  unfold vocal_cancel_mid_side
  rw [if_neg (by norm_num)]
  simp only
  rw [butter_lowpass_sos_ok 44100 120 (by norm_num) (by norm_num)]
  have hshort : (midOf (colL [[(0:ℝ), 0]]) (colR [[(0:ℝ), 0]])).length ≤
      padlenOf (butterLowpassSections (butterWn 44100 120)) := by
    have := padlen_ge_nine (butterLowpassSections (butterWn 44100 120))
      (butterLowpassSections_length _)
    simp only [midOf, colL, colR, List.map_cons, List.map_nil,
      List.zipWith_cons_cons, List.zipWith_nil_right, List.length_cons,
      List.length_nil]
    omega
  simp only [sosfiltfilt_short _ _ hshort]

/-- Witness for `output_samples_bounded` (C5) at the all-zero 16-frame
stereo input, whose output is known by `vocal_cancel_zero_input`. -/
theorem output_samples_bounded_witness :
    (zeroStereo 16 44100).channels = 2 ∧ 1 ≤ (zeroStereo 16 44100).data.length ∧
    0 < 120 ∧ 2 * 120 < (zeroStereo 16 44100).sr ∧
    ∀ row ∈ (zeroStereo 16 44100).data, ∀ v ∈ row, |v| ≤ 1 :=
  ⟨rfl, by simp [zeroStereo], by norm_num, by norm_num [zeroStereo],
    output_samples_bounded (zeroStereo 16 44100) 120 (zeroStereo 16 44100)
      rfl (by simp [zeroStereo]) (by norm_num) (by norm_num [zeroStereo])
      (vocal_cancel_zero_input 16 44100 120 (le_refl 16) (by norm_num)
        (by norm_num))⟩

/-! ## Length preservation and the stereo success path -/

theorem sectionFilter_length (s : SosSection) (st : ℝ × ℝ) (x : List ℝ) :
    (sectionFilter s st x).1.length = x.length := by
  induction x generalizing st with
  | nil => rfl
  | cons a as ih =>
    simp only [sectionFilter, List.length_cons]
    rw [ih]

theorem sosfiltRun_length (sos : List SosSection) (zi : List (ℝ × ℝ))
    (x : List ℝ) : (sosfiltRun sos zi x).length = x.length := by
  induction sos generalizing zi x with
  | nil => rfl
  | cons s rest ih =>
    rw [sosfiltRun, ih, sectionFilter_length]

theorem odd_ext_length (n : ℕ) (x : List ℝ) :
    (odd_ext n x).length = n + x.length + n := by
  simp [odd_ext]
  omega

theorem filtfiltCore_length (sos : List SosSection) (x : List ℝ) :
    (filtfiltCore sos x).length = x.length := by
  unfold filtfiltCore
  simp only [List.length_take, List.length_drop, List.length_reverse,
    sosfiltRun_length, odd_ext_length]
  omega

theorem midOf_col_length (d : List (List ℝ)) :
    (midOf (colL d) (colR d)).length = d.length := by
  simp [midOf, colL, colR]

theorem sideOf_col_length (d : List (List ℝ)) :
    (sideOf (colL d) (colR d)).length = d.length := by
  simp [sideOf, colL, colR]

/-- Shared short-input helper: a non-mono buffer with at most 9 frames
and a valid cutoff always fails, because the mid channel is no longer
than the `sosfiltfilt` padding length (which is at least 9 for two
sections). -/
theorem vocal_cancel_short_error (b : AudioBuffer) (c : ℕ)
    (hch : b.channels ≠ 1) (hc0 : 0 < c) (hc1 : 2 * c < b.sr)
    (hshort : b.data.length ≤ 9) :
    vocal_cancel_mid_side b c = .error .shortInput := by
  unfold vocal_cancel_mid_side
  rw [if_neg hch]
  simp only
  rw [butter_lowpass_sos_ok b.sr c hc0 hc1]
  have h9 := padlen_ge_nine (butterLowpassSections (butterWn b.sr c))
    (butterLowpassSections_length _)
  have hlen : (midOf (colL b.data) (colR b.data)).length ≤
      padlenOf (butterLowpassSections (butterWn b.sr c)) := by
    rw [midOf_col_length]
    omega
  simp only [sosfiltfilt_short _ _ hlen]

/-- Shared success-path helper: for a non-mono buffer with more than 15
frames and a valid cutoff, the call succeeds and its output is the
normalized stack of `S + M_low` and `-S + M_low`. -/
theorem vocal_cancel_stereo_eq (b : AudioBuffer) (c : ℕ)
    (hch : b.channels ≠ 1) (hc0 : 0 < c) (hc1 : 2 * c < b.sr)
    (hn : 16 ≤ b.data.length) :
    vocal_cancel_mid_side b c =
      .ok { channels := 2,
            data := normalize_stack
              (List.zipWith (fun s m => s + m)
                (sideOf (colL b.data) (colR b.data))
                (filtfiltCore (butterLowpassSections (butterWn b.sr c))
                  (midOf (colL b.data) (colR b.data))))
              (List.zipWith (fun s m => -s + m)
                (sideOf (colL b.data) (colR b.data))
                (filtfiltCore (butterLowpassSections (butterWn b.sr c))
                  (midOf (colL b.data) (colR b.data)))),
            sr := b.sr } := by
  unfold vocal_cancel_mid_side
  rw [if_neg hch]
  simp only
  rw [butter_lowpass_sos_ok b.sr c hc0 hc1]
  have h15 := padlen_le_fifteen (butterLowpassSections (butterWn b.sr c))
    (butterLowpassSections_length _)
  have hlen : padlenOf (butterLowpassSections (butterWn b.sr c)) <
      (midOf (colL b.data) (colR b.data)).length := by
    rw [midOf_col_length]
    omega
  simp only [sosfiltfilt_ok _ _ hlen]

theorem getD_zipWith (f : ℝ → ℝ → ℝ) (xs ys : List ℝ) (i : ℕ)
    (h1 : i < xs.length) (h2 : i < ys.length) :
    (List.zipWith f xs ys).getD i 0 = f (xs.getD i 0) (ys.getD i 0) := by
  have hz : i < (List.zipWith f xs ys).length := by
    rw [List.length_zipWith]
    omega
  rw [List.getD_eq_getElem _ _ hz, List.getD_eq_getElem _ _ h1,
    List.getD_eq_getElem _ _ h2, List.getElem_zipWith]

/-! ## Mid/side decomposition and recombination -/

/-- C1 counterexample: a non-empty (one-frame) stereo input with a valid
cutoff produces no output channels at all — `sosfiltfilt` rejects the
one-sample mid channel, so the run fails before recombination. -/
theorem mid_side_length_one_counterexample :
    0 < 120 ∧ 2 * 120 < 44100 ∧
    vocal_cancel_mid_side
        { channels := 2, data := [[1, 0]], sr := 44100 } 120 =
      .error .shortInput :=
  ⟨by norm_num, by norm_num,
    vocal_cancel_short_error _ 120 (by norm_num) (by norm_num) (by norm_num)
      (by norm_num)⟩

/-- C1 (amended to inputs with more than 15 frames, the `sosfiltfilt`
padding requirement): the call succeeds, the mid and side channels
satisfy `M[i] = 0.5 * (L[i] + R[i])` and `S[i] = 0.5 * (L[i] - R[i])`,
the mid channel is low-pass filtered to `M_low`, and the output written
is the normalization of the stacked channels whose entries are
`outL[i] = S[i] + M_low[i]` and `outR[i] = -S[i] + M_low[i]`. -/
theorem mid_side_recombination (b : AudioBuffer) (c : ℕ)
    (hch : b.channels = 2) (hn : 16 ≤ b.data.length)
    (hc0 : 0 < c) (hc1 : 2 * c < b.sr) :
    ∃ Mlow : List ℝ,
      sosfiltfilt (butterLowpassSections (butterWn b.sr c))
        (midOf (colL b.data) (colR b.data)) = .ok Mlow ∧
      vocal_cancel_mid_side b c =
        .ok { channels := 2,
              data := normalize_stack
                (List.zipWith (fun s m => s + m)
                  (sideOf (colL b.data) (colR b.data)) Mlow)
                (List.zipWith (fun s m => -s + m)
                  (sideOf (colL b.data) (colR b.data)) Mlow),
              sr := b.sr } ∧
      ∀ i < b.data.length,
        (midOf (colL b.data) (colR b.data)).getD i 0 =
          0.5 * ((colL b.data).getD i 0 + (colR b.data).getD i 0) ∧
        (sideOf (colL b.data) (colR b.data)).getD i 0 =
          0.5 * ((colL b.data).getD i 0 - (colR b.data).getD i 0) ∧
        (List.zipWith (fun s m => s + m)
            (sideOf (colL b.data) (colR b.data)) Mlow).getD i 0 =
          (sideOf (colL b.data) (colR b.data)).getD i 0 + Mlow.getD i 0 ∧
        (List.zipWith (fun s m => -s + m)
            (sideOf (colL b.data) (colR b.data)) Mlow).getD i 0 =
          -((sideOf (colL b.data) (colR b.data)).getD i 0) + Mlow.getD i 0 := by
  have hch1 : b.channels ≠ 1 := by rw [hch]; norm_num
  have h15 := padlen_le_fifteen (butterLowpassSections (butterWn b.sr c))
    (butterLowpassSections_length _)
  have hlen : padlenOf (butterLowpassSections (butterWn b.sr c)) <
      (midOf (colL b.data) (colR b.data)).length := by
    rw [midOf_col_length]
    omega
  refine ⟨filtfiltCore (butterLowpassSections (butterWn b.sr c))
      (midOf (colL b.data) (colR b.data)),
    sosfiltfilt_ok _ _ hlen,
    vocal_cancel_stereo_eq b c hch1 hc0 hc1 hn, ?_⟩
  intro i hi
  have hL : i < (colL b.data).length := by simp [colL]; omega
  have hR : i < (colR b.data).length := by simp [colR]; omega
  have hS : i < (sideOf (colL b.data) (colR b.data)).length := by
    rw [sideOf_col_length]
    omega
  have hMl : i < (filtfiltCore (butterLowpassSections (butterWn b.sr c))
      (midOf (colL b.data) (colR b.data))).length := by
    rw [filtfiltCore_length, midOf_col_length]
    omega
  exact ⟨getD_zipWith _ _ _ i hL hR, getD_zipWith _ _ _ i hL hR,
    getD_zipWith _ _ _ i hS hMl, getD_zipWith _ _ _ i hS hMl⟩

/-- Witness for `mid_side_recombination` at the 16-frame all-zero stereo
buffer with cutoff 120 Hz at 44100 Hz. -/
theorem mid_side_recombination_witness :
    (zeroStereo 16 44100).channels = 2 ∧
    16 ≤ (zeroStereo 16 44100).data.length ∧ 0 < 120 ∧
    2 * 120 < (zeroStereo 16 44100).sr ∧
    ∃ Mlow : List ℝ,
      sosfiltfilt (butterLowpassSections (butterWn (zeroStereo 16 44100).sr 120))
        (midOf (colL (zeroStereo 16 44100).data)
          (colR (zeroStereo 16 44100).data)) = .ok Mlow ∧
      vocal_cancel_mid_side (zeroStereo 16 44100) 120 =
        .ok { channels := 2,
              data := normalize_stack
                (List.zipWith (fun s m => s + m)
                  (sideOf (colL (zeroStereo 16 44100).data)
                    (colR (zeroStereo 16 44100).data)) Mlow)
                (List.zipWith (fun s m => -s + m)
                  (sideOf (colL (zeroStereo 16 44100).data)
                    (colR (zeroStereo 16 44100).data)) Mlow),
              sr := (zeroStereo 16 44100).sr } ∧
      ∀ i < (zeroStereo 16 44100).data.length,
        (midOf (colL (zeroStereo 16 44100).data)
            (colR (zeroStereo 16 44100).data)).getD i 0 =
          0.5 * ((colL (zeroStereo 16 44100).data).getD i 0 +
            (colR (zeroStereo 16 44100).data).getD i 0) ∧
        (sideOf (colL (zeroStereo 16 44100).data)
            (colR (zeroStereo 16 44100).data)).getD i 0 =
          0.5 * ((colL (zeroStereo 16 44100).data).getD i 0 -
            (colR (zeroStereo 16 44100).data).getD i 0) ∧
        (List.zipWith (fun s m => s + m)
            (sideOf (colL (zeroStereo 16 44100).data)
              (colR (zeroStereo 16 44100).data)) Mlow).getD i 0 =
          (sideOf (colL (zeroStereo 16 44100).data)
            (colR (zeroStereo 16 44100).data)).getD i 0 + Mlow.getD i 0 ∧
        (List.zipWith (fun s m => -s + m)
            (sideOf (colL (zeroStereo 16 44100).data)
              (colR (zeroStereo 16 44100).data)) Mlow).getD i 0 =
          -((sideOf (colL (zeroStereo 16 44100).data)
            (colR (zeroStereo 16 44100).data)).getD i 0) + Mlow.getD i 0 :=
  ⟨rfl, by simp [zeroStereo], by norm_num, by norm_num [zeroStereo],
    mid_side_recombination (zeroStereo 16 44100) 120 rfl
      (by simp [zeroStereo]) (by norm_num) (by norm_num [zeroStereo])⟩

/-! ## Output shape for two or more channels -/

theorem stackLR_length (outL outR : List ℝ) :
    (stackLR outL outR).length = min outL.length outR.length := by
  simp [stackLR]

theorem normalize_stack_length (outL outR : List ℝ) :
    (normalize_stack outL outR).length = min outL.length outR.length := by
  unfold normalize_stack
  by_cases h : 1 < (if rawPeakOf outL outR = 0 then (1:ℝ)
      else rawPeakOf outL outR)
  · rw [if_pos h, List.length_map, stackLR_length]
  · rw [if_neg h, stackLR_length]

theorem normalize_stack_rows (outL outR : List ℝ) :
    ∀ row ∈ normalize_stack outL outR, row.length = 2 := by
  intro row hrow
  unfold normalize_stack at hrow
  by_cases h : 1 < (if rawPeakOf outL outR = 0 then (1:ℝ)
      else rawPeakOf outL outR)
  · rw [if_pos h] at hrow
    obtain ⟨row0, hrow0, rfl⟩ := List.mem_map.mp hrow
    obtain ⟨l, r, _, _, rfl⟩ := mem_stackLR _ _ _ hrow0
    rfl
  · rw [if_neg h] at hrow
    obtain ⟨l, r, _, _, rfl⟩ := mem_stackLR _ _ _ hrow
    rfl

theorem colL_take_two (d : List (List ℝ)) :
    colL (d.map (fun fr => [fr.getD 0 0, fr.getD 1 0])) = colL d := by
  unfold colL
  rw [List.map_map]
  rfl

theorem colR_take_two (d : List (List ℝ)) :
    colR (d.map (fun fr => [fr.getD 0 0, fr.getD 1 0])) = colR d := by
  unfold colR
  rw [List.map_map]
  rfl

/-- C10 counterexample: a two-frame three-channel input (with the
typical valid cutoff) yields no output at all — the claim's conclusion
that the output has 2 channels and 2 frames fails because `sosfiltfilt`
rejects the two-sample mid channel. -/
theorem multichannel_short_counterexample :
    vocal_cancel_mid_side
        { channels := 3, data := [[1, 2, 3], [4, 5, 6]], sr := 44100 } 120 =
      .error .shortInput :=
  vocal_cancel_short_error _ 120 (by norm_num) (by norm_num) (by norm_num)
    (by norm_num)

/-- C10 (amended to inputs with more than 15 frames and a valid cutoff):
with two or more channels the call succeeds, the output has exactly 2
channels and the same frame count as the input, and it is unchanged if
every channel beyond the first two is dropped from the input. -/
theorem multichannel_output_shape (b : AudioBuffer) (c : ℕ)
    (hch : 2 ≤ b.channels) (hn : 16 ≤ b.data.length)
    (hc0 : 0 < c) (hc1 : 2 * c < b.sr) :
    ∃ out : AudioBuffer, vocal_cancel_mid_side b c = .ok out ∧
      out.channels = 2 ∧
      out.data.length = b.data.length ∧
      (∀ row ∈ out.data, row.length = 2) ∧
      vocal_cancel_mid_side
        { channels := 2,
          data := b.data.map (fun fr => [fr.getD 0 0, fr.getD 1 0]),
          sr := b.sr } c = .ok out := by
  have hch1 : b.channels ≠ 1 := by omega
  refine ⟨_, vocal_cancel_stereo_eq b c hch1 hc0 hc1 hn, rfl, ?_, ?_, ?_⟩
  · rw [normalize_stack_length, List.length_zipWith, List.length_zipWith,
      sideOf_col_length, filtfiltCore_length, midOf_col_length]
    omega
  · exact normalize_stack_rows _ _
  · have hn' : 16 ≤ (b.data.map (fun fr => [fr.getD 0 0, fr.getD 1 0])).length := by
      rw [List.length_map]
      exact hn
    rw [vocal_cancel_stereo_eq
      { channels := 2,
        data := b.data.map (fun fr => [fr.getD 0 0, fr.getD 1 0]),
        sr := b.sr } c (by norm_num) hc0 hc1 hn']
    simp only [colL_take_two, colR_take_two]

/-- Three-channel 16-frame test buffer for the C10 witness. -/
def threeChanBuf : AudioBuffer :=
  { channels := 3, data := List.replicate 16 [0, 0, 0], sr := 44100 }

/-- Witness for `multichannel_output_shape` at a 16-frame three-channel
buffer with cutoff 120 Hz at 44100 Hz. -/
theorem multichannel_output_shape_witness :
    2 ≤ threeChanBuf.channels ∧ 16 ≤ threeChanBuf.data.length ∧
    0 < 120 ∧ 2 * 120 < threeChanBuf.sr ∧
    ∃ out : AudioBuffer,
      vocal_cancel_mid_side threeChanBuf 120 = .ok out ∧
      out.channels = 2 ∧
      out.data.length = threeChanBuf.data.length ∧
      (∀ row ∈ out.data, row.length = 2) ∧
      vocal_cancel_mid_side
        { channels := 2,
          data := threeChanBuf.data.map (fun fr => [fr.getD 0 0, fr.getD 1 0]),
          sr := threeChanBuf.sr } 120 = .ok out :=
  ⟨by norm_num [threeChanBuf], by simp [threeChanBuf], by norm_num,
    by norm_num [threeChanBuf],
    multichannel_output_shape threeChanBuf 120 (by norm_num [threeChanBuf])
      (by simp [threeChanBuf]) (by norm_num) (by norm_num [threeChanBuf])⟩

end KaraokeApp2
